import Mathlib

/-!
Verification of the `lucidia-core` snippet-execution subsystem against its
specification.

The central artifact is `src/app.py`.  Its validator `_validate` (lines
138-162) is clean, parseable code and is embedded faithfully below: a Python
abstract-syntax tree restricted to the node classes the checker inspects, the
breadth-first node enumeration of `ast.walk`, and the first-offense rejection
logic.  The session state store (`SESSION_STATES`, `_load_session_state`,
`_persist_session_state`, lines 38-87) and the hash registry
(`src/blackroad_hash.py`) are embedded as well.

Note on `SAFE_BUILTINS`: `src/app.py` assigns the name twice (lines 24-35 and
line 104); the later assignment wins, so the effective allowlist is
`{print, abs, round, pow}`.  Both tables appear below.

Note on `run_code` (lines 171-209): that function body is not valid Python —
it interleaves three conflicting variants of the handler and contains `try:`
blocks with no `except`/`finally` (lines 180-184 and 192-198), so the module
cannot be parsed or served.  No embedding of `run_code` is attempted;
claims that depend on it are settled as code bugs in the results.
-/

/-- Constant payloads of `ast.Constant` nodes that the concrete programs in
this development need.  `_validate` never inspects a constant, so the payload
is carried only to keep concrete programs recognizable. -/
inductive PyConst where
  | int (n : Int)
  | str (s : String)
deriving DecidableEq

mutual

/-- Python expressions, restricted to the node classes `_validate` can meet:
`ast.Name`, `ast.Attribute` (here `attrAccess`), `ast.Call`, `ast.Constant`.
`attrAccess base attr` models `base.attr`. -/
inductive PyExpr where
  | name (id : String)
  | attrAccess (base : PyExpr) (attr : String)
  | call (func : PyExpr) (args : PyExprList)
  | const (v : PyConst)

/-- A list of expressions, as its own inductive so that all recursions below
are plainly structural (and therefore evaluable by the kernel). -/
inductive PyExprList where
  | nil
  | cons (head : PyExpr) (tail : PyExprList)

/-- Python statements, restricted to what the concrete programs and the
checker need: `ast.Import` (`importStmt`), `ast.ImportFrom` (`importFrom`),
expression statements, assignments, `if` and `for`. -/
inductive PyStmt where
  | importStmt (module : String)
  | importFrom (module : String)
  | exprStmt (e : PyExpr)
  | assign (targets : PyExprList) (value : PyExpr)
  | ifStmt (test : PyExpr) (body orelse : PyStmtList)
  | forStmt (target : PyExpr) (iter : PyExpr) (body : PyStmtList)

/-- A list of statements, as its own inductive (see `PyExprList`). -/
inductive PyStmtList where
  | nil
  | cons (head : PyStmt) (tail : PyStmtList)

end

/-- An `ast.Module`: the root node produced by `ast.parse(code, mode="exec")`. -/
structure PyModule where
  body : PyStmtList

/-- A node of the walk, in the sense of `ast.walk`: the module root, a
statement, or an expression.  (`ast` also yields context/alias leaves such as
`Load`, `Store` and `alias`; `_validate` matches none of them, so they are
omitted from the enumeration — they can never be the first offense.) -/
inductive PyNode where
  | module (m : PyModule)
  | stmt (s : PyStmt)
  | expr (e : PyExpr)

mutual

/-- Number of (modelled) syntax-tree nodes of an expression. -/
def exprSize : PyExpr → Nat
  | .name _ => 1
  | .const _ => 1
  | .attrAccess b _ => 1 + exprSize b
  | .call f args => 1 + exprSize f + exprListSize args

/-- Total node count of an expression list. -/
def exprListSize : PyExprList → Nat
  | .nil => 0
  | .cons e es => exprSize e + exprListSize es

/-- Number of (modelled) syntax-tree nodes of a statement. -/
def stmtSize : PyStmt → Nat
  | .importStmt _ => 1
  | .importFrom _ => 1
  | .exprStmt e => 1 + exprSize e
  | .assign ts v => 1 + exprListSize ts + exprSize v
  | .ifStmt t b o => 1 + exprSize t + stmtListSize b + stmtListSize o
  | .forStmt t i b => 1 + exprSize t + exprSize i + stmtListSize b

/-- Total node count of a statement list. -/
def stmtListSize : PyStmtList → Nat
  | .nil => 0
  | .cons s ss => stmtSize s + stmtListSize ss

end

/-- Node count of a walk node. -/
def nodeSize : PyNode → Nat
  | .module m => 1 + stmtListSize m.body
  | .stmt s => stmtSize s
  | .expr e => exprSize e

/-- An expression list as walk nodes (source order). -/
def exprListNodes : PyExprList → List PyNode
  | .nil => []
  | .cons e es => PyNode.expr e :: exprListNodes es

/-- A statement list as walk nodes (source order). -/
def stmtListNodes : PyStmtList → List PyNode
  | .nil => []
  | .cons s ss => PyNode.stmt s :: stmtListNodes ss

/-- `ast.iter_child_nodes`, restricted to the modelled node classes, in field
declaration order (`If`: test, body, orelse; `For`: target, iter, body;
`Assign`: targets, value; `Call`: func, args; `Attribute`: value). -/
def children : PyNode → List PyNode
  | .module m => stmtListNodes m.body
  | .stmt (.importStmt _) => []
  | .stmt (.importFrom _) => []
  | .stmt (.exprStmt e) => [PyNode.expr e]
  | .stmt (.assign ts v) => exprListNodes ts ++ [PyNode.expr v]
  | .stmt (.ifStmt t b o) => PyNode.expr t :: (stmtListNodes b ++ stmtListNodes o)
  | .stmt (.forStmt t i b) => PyNode.expr t :: PyNode.expr i :: stmtListNodes b
  | .expr (.name _) => []
  | .expr (.const _) => []
  | .expr (.attrAccess b _) => [PyNode.expr b]
  | .expr (.call f args) => PyNode.expr f :: exprListNodes args

/-- Total node count of a queue of walk nodes. -/
def sumNodeSize : List PyNode → Nat
  | [] => 0
  | n :: q => nodeSize n + sumNodeSize q

/-- `ast.walk`: breadth-first enumeration with an explicit work queue
(`deque`), yielding each node before enqueuing its children.  Fuel makes the
recursion structural; `pyWalkAux_fuel_irrel` below shows any fuel of at least
the total node count gives the full enumeration. -/
def pyWalkAux : Nat → List PyNode → List PyNode
  | 0, _ => []
  | _ + 1, [] => []
  | fuel + 1, n :: q => n :: pyWalkAux fuel (q ++ children n)

/-- The breadth-first node enumeration of a module, exactly `ast.walk(tree)`
(modulo the never-offending context/alias leaves, see `PyNode`). -/
def pyWalk (m : PyModule) : List PyNode :=
  pyWalkAux (nodeSize (PyNode.module m)) [PyNode.module m]

/-- The two assignments to `SAFE_BUILTINS` in `src/app.py`.  This is the
first (lines 24-35); it is dead code, overwritten at line 104. -/
def SAFE_BUILTINS_FIRST : List String :=
  ["abs", "enumerate", "globals", "len", "list", "max", "min", "print",
   "range", "sum"]

/-- The effective `SAFE_BUILTINS` (line 104 of `src/app.py`), the set of
bare names `_validate` permits as call targets and the primitive table the
execution namespace would expose. -/
def SAFE_BUILTINS : List String := ["print", "abs", "round", "pow"]

/-- The rejection reasons `_validate` can raise, one constructor per
`CodeValidationError` site (lines 151, 154, 159, 162 of `src/app.py`). -/
inductive ValidationError where
  | importForbidden
  | attributeForbidden
  | callForbiddenName (id : String)
  | callForbiddenAttr
deriving DecidableEq

/-- The exact message text of each `CodeValidationError` in `src/app.py`. -/
def ValidationError.message : ValidationError → String
  | .importForbidden => "import statements are not allowed"
  | .attributeForbidden => "attribute access restricted to math module"
  | .callForbiddenName id => "call to \x27" ++ id ++ "\x27 is not permitted"
  | .callForbiddenAttr => "only calls to math functions are permitted"

/-- `isinstance(node.value, ast.Name) and node.value.id == "math"`. -/
def isMathName : PyExpr → Bool
  | .name id => id == "math"
  | _ => false

/-- The per-node check of `_validate`'s loop body: the offense this node
raises, if any.  Import nodes always offend; an attribute offends unless its
base is the bare name `math`; a call offends when its target is a bare name
outside `SAFE_BUILTINS` or an attribute not rooted at `math`. -/
def offense : PyNode → Option ValidationError
  | .stmt (.importStmt _) => some .importForbidden
  | .stmt (.importFrom _) => some .importForbidden
  | .expr (.attrAccess b _) =>
      if isMathName b then none else some .attributeForbidden
  | .expr (.call f _) =>
      match f with
      | .name id =>
          if SAFE_BUILTINS.contains id then none
          else some (.callForbiddenName id)
      | .attrAccess b _ =>
          if isMathName b then none else some .callForbiddenAttr
      | _ => none
  | _ => none

/-- The first offense along a node enumeration: `_validate` raises at the
first offending node `ast.walk` yields. -/
def firstOffense : List PyNode → Option ValidationError
  | [] => none
  | n :: rest =>
      match offense n with
      | some e => some e
      | none => firstOffense rest

/-- `_validate(code)` on a parsed module: `Except.ok ()` models a normal
return (the code is accepted), `Except.error e` models raising
`CodeValidationError` with reason `e`. -/
def validate (m : PyModule) : Except ValidationError Unit :=
  match firstOffense (pyWalk m) with
  | some e => Except.error e
  | none => Except.ok ()

/-! ### Fidelity of the fuel-based walk

Each step of `pyWalkAux` removes one node from the queue and enqueues its
children, so the total node count drops by exactly one per step: any fuel of
at least `sumNodeSize q` yields the complete breadth-first enumeration.  The
lemmas below make that exact, so `pyWalk`'s fuel choice is immaterial. -/

theorem sumNodeSize_append (a b : List PyNode) :
    sumNodeSize (a ++ b) = sumNodeSize a + sumNodeSize b := by
  induction a with
  | nil => simp [sumNodeSize]
  | cons n q ih => simp [sumNodeSize, ih]; omega

theorem sumNodeSize_exprListNodes :
    ∀ es : PyExprList, sumNodeSize (exprListNodes es) = exprListSize es
  | .nil => rfl
  | .cons e es => by
      simp [exprListNodes, sumNodeSize, nodeSize, exprListSize,
        sumNodeSize_exprListNodes es]

theorem sumNodeSize_stmtListNodes :
    ∀ ss : PyStmtList, sumNodeSize (stmtListNodes ss) = stmtListSize ss
  | .nil => rfl
  | .cons s ss => by
      simp [stmtListNodes, sumNodeSize, nodeSize, stmtListSize,
        sumNodeSize_stmtListNodes ss]

theorem children_size (n : PyNode) : sumNodeSize (children n) + 1 = nodeSize n := by
  cases n with
  | module m =>
      simp [children, nodeSize, sumNodeSize_stmtListNodes]; omega
  | stmt s =>
      cases s <;>
        simp [children, nodeSize, stmtSize, sumNodeSize, sumNodeSize_append,
          sumNodeSize_exprListNodes, sumNodeSize_stmtListNodes] <;> omega
  | expr e =>
      cases e <;>
        simp [children, nodeSize, exprSize, sumNodeSize, sumNodeSize_append,
          sumNodeSize_exprListNodes] <;> omega

theorem nodeSize_pos (n : PyNode) : 1 ≤ nodeSize n := by
  have := children_size n; omega

theorem pyWalkAux_fuel_irrel :
    ∀ (f g : Nat) (q : List PyNode), sumNodeSize q ≤ f → sumNodeSize q ≤ g →
      pyWalkAux f q = pyWalkAux g q := by
  intro f
  induction f with
  | zero =>
      intro g q hf _
      cases q with
      | nil => cases g <;> rfl
      | cons n q =>
          exact absurd hf (by have := nodeSize_pos n; simp [sumNodeSize]; omega)
  | succ f ih =>
      intro g q hf hg
      cases q with
      | nil => cases g <;> rfl
      | cons n q =>
          have hpos := nodeSize_pos n
          have hs : sumNodeSize (n :: q) = nodeSize n + sumNodeSize q := rfl
          cases g with
          | zero => exact absurd hg (by omega)
          | succ g =>
              show n :: pyWalkAux f (q ++ children n) =
                n :: pyWalkAux g (q ++ children n)
              have hc := children_size n
              have hq : sumNodeSize (q ++ children n) + 1 = sumNodeSize (n :: q) := by
                rw [sumNodeSize_append]; omega
              exact congrArg _ (ih g _ (by omega) (by omega))

/-- Any fuel of at least the module's node count computes the same walk as
`pyWalk`: the fuel in `pyWalk`'s definition loses nothing. -/
theorem pyWalk_fuel (m : PyModule) (f : Nat)
    (hf : nodeSize (PyNode.module m) ≤ f) :
    pyWalkAux f [PyNode.module m] = pyWalk m := by
  have h : sumNodeSize [PyNode.module m] = nodeSize (PyNode.module m) := by
    simp [sumNodeSize]
  exact pyWalkAux_fuel_irrel f _ _ (by omega) (by omega)

/-! ### First-offense lemmas -/

theorem firstOffense_eq_none_iff (l : List PyNode) :
    firstOffense l = none ↔ ∀ n ∈ l, offense n = none := by
  induction l with
  | nil => simp [firstOffense]
  | cons n rest ih =>
      cases h : offense n with
      | some e => simp [firstOffense, h]
      | none => simp [firstOffense, h, ih]

theorem firstOffense_isSome (l : List PyNode) (n : PyNode) (hn : n ∈ l)
    (e : ValidationError) (he : offense n = some e) :
    ∃ x, firstOffense l = some x := by
  cases h : firstOffense l with
  | some x => exact ⟨x, rfl⟩
  | none =>
      have hno := (firstOffense_eq_none_iff l).mp h n hn
      rw [he] at hno
      exact absurd hno (by simp)

theorem validate_error_of_offense (m : PyModule) (n : PyNode)
    (hn : n ∈ pyWalk m) (e : ValidationError) (he : offense n = some e) :
    ∃ x, validate m = Except.error x := by
  obtain ⟨x, hx⟩ := firstOffense_isSome (pyWalk m) n hn e he
  exact ⟨x, by simp [validate, hx]⟩

theorem validate_ok_of_clean (m : PyModule)
    (h : ∀ n ∈ pyWalk m, offense n = none) : validate m = Except.ok () := by
  simp [validate, (firstOffense_eq_none_iff (pyWalk m)).mpr h]

/-! ### Node predicates used to state the claims -/

/-- This node is an import-style construct (`ast.Import` / `ast.ImportFrom`). -/
def hasImportNode : PyNode → Bool
  | .stmt (.importStmt _) => true
  | .stmt (.importFrom _) => true
  | _ => false

/-- This node is an attribute access whose base is not the bare name `math`. -/
def isBadAttrNode : PyNode → Bool
  | .expr (.attrAccess b _) => !isMathName b
  | _ => false

/-- The reserved double-underscore naming convention: the identifier both
starts and ends with two underscores. -/
def isDunder (s : String) : Bool :=
  (s.toList.take 2 == ['_', '_']) && (s.toList.reverse.take 2 == ['_', '_'])

/-- This node is a name or attribute using the double-underscore convention. -/
def usesDunder : PyNode → Bool
  | .expr (.name id) => isDunder id
  | .expr (.attrAccess _ a) => isDunder a
  | _ => false

/-- Every attribute access this node makes is on the permitted alias `math`. -/
def attrOnMathAlias : PyNode → Bool
  | .expr (.attrAccess b _) => isMathName b
  | _ => true

/-- If this node is a call, its target is a permitted primitive name or a
function of the permitted alias `math`. -/
def callPermitted : PyNode → Bool
  | .expr (.call (.name id) _) => SAFE_BUILTINS.contains id
  | .expr (.call (.attrAccess b _) _) => isMathName b
  | .expr (.call _ _) => false
  | _ => true

theorem offense_of_hasImport (n : PyNode) (h : hasImportNode n = true) :
    offense n = some ValidationError.importForbidden := by
  cases n with
  | module m => simp [hasImportNode] at h
  | expr e => simp [hasImportNode] at h
  | stmt s => cases s <;> simp_all [hasImportNode, offense]

theorem offense_of_badAttr (n : PyNode) (h : isBadAttrNode n = true) :
    offense n = some ValidationError.attributeForbidden := by
  cases n with
  | module m => simp [isBadAttrNode] at h
  | stmt s => simp [isBadAttrNode] at h
  | expr e =>
      cases e with
      | attrAccess b a =>
          simp [isBadAttrNode] at h
          simp [offense, h]
      | name id => simp [isBadAttrNode] at h
      | call f args => simp [isBadAttrNode] at h
      | const v => simp [isBadAttrNode] at h

theorem offense_none_of_ok (n : PyNode) (h1 : hasImportNode n = false)
    (h2 : attrOnMathAlias n = true) (h3 : callPermitted n = true) :
    offense n = none := by
  cases n with
  | module m => rfl
  | stmt s => cases s <;> simp_all [hasImportNode, offense]
  | expr e =>
      cases e with
      | name id => rfl
      | const v => rfl
      | attrAccess b a =>
          simp [attrOnMathAlias] at h2
          simp [offense, h2]
      | call f args => cases f <;> simp_all [callPermitted, offense]

/-! ### Concrete programs

Each definition is the `ast.parse` tree of the Python source named in its
doc comment. -/

/-- `import os`. -/
def importOsProg : PyModule := ⟨.cons (.importStmt "os") .nil⟩

/-- `__class__` — a bare double-underscore name as an expression statement. -/
def dunderNameProg : PyModule := ⟨.cons (.exprStmt (.name "__class__")) .nil⟩

/-- `x.__subclasses__` — a reflective accessor reaching for the interpreter
class registry through an attribute of an ordinary name. -/
def dunderAttrProg : PyModule :=
  ⟨.cons (.exprStmt (.attrAccess (.name "x") "__subclasses__")) .nil⟩

/-- `x.y` on line 1, then `if 1:` with body `import os`: the import sits at
depth 3 of the tree while the attribute access sits at depth 2, so the
breadth-first walk meets the attribute first. -/
def mixedProg : PyModule :=
  ⟨.cons (.exprStmt (.attrAccess (.name "x") "y"))
    (.cons (.ifStmt (.const (.int 1)) (.cons (.importStmt "os") .nil) .nil)
      .nil)⟩

/-- `for i in range(3): print(i)` — the spec's end-to-end example. -/
def rangeForProg : PyModule :=
  ⟨.cons
    (.forStmt (.name "i")
      (.call (.name "range") (.cons (.const (.int 3)) .nil))
      (.cons (.exprStmt (.call (.name "print") (.cons (.name "i") .nil))) .nil))
    .nil⟩

/-- The raw source text `x = "subprocess"`: the forbidden token `subprocess`
occurs literally in the text, but only inside a string literal. -/
def strLitSrc : String := "x = \"subprocess\""

/-- The parse tree of `strLitSrc`. -/
def strLitProg : PyModule :=
  ⟨.cons (.assign (.cons (.name "x") .nil) (.const (.str "subprocess"))) .nil⟩

/-- `math.sqrt(4)` — only a permitted-alias attribute and call. -/
def mathSqrtProg : PyModule :=
  ⟨.cons
    (.exprStmt (.call (.attrAccess (.name "math") "sqrt")
      (.cons (.const (.int 4)) .nil)))
    .nil⟩

/-! ### Claim theorems for the validator -/

/-- C2 (amended): every submission containing an attribute access whose base
is not the permitted alias `math` — which covers every reflective
double-underscore accessor reached through an object, such as an attempt on
the interpreter class registry — is rejected by `validate`.  There is no
dedicated ReflectionForbidden reason: the rejection is the general attribute
restriction (or whatever offense the walk meets first). -/
theorem nonmath_attr_rejected (m : PyModule)
    (h : (pyWalk m).any isBadAttrNode = true) :
    ∃ e, validate m = Except.error e := by
  obtain ⟨n, hn, hbad⟩ := List.any_eq_true.mp h
  exact validate_error_of_offense m n hn _ (offense_of_badAttr n hbad)

/-- C2 witness: `x.__subclasses__` contains a non-`math` attribute access and
is rejected. -/
theorem nonmath_attr_rejected_witness :
    ((pyWalk dunderAttrProg).any isBadAttrNode = true) ∧
      ∃ e, validate dunderAttrProg = Except.error e :=
  ⟨rfl, nonmath_attr_rejected dunderAttrProg rfl⟩

/-- C2 counterexample: the submission `__class__` consists of a bare name
using the reserved double-underscore convention, yet `validate` accepts it —
refuting the claim that every such submission is rejected (with
ReflectionForbidden or any other reason). -/
theorem dunder_name_accepted :
    ((pyWalk dunderNameProg).any usesDunder = true) ∧
      validate dunderNameProg = Except.ok () :=
  ⟨rfl, rfl⟩

/-- C3 (amended): `for i in range(3): print(i)` is rejected by `_validate`
with the CallForbidden reason for `range` — `range` is absent from the
effective `SAFE_BUILTINS` at line 104 of `src/app.py`, though it appears in
the dead first table at lines 24-35 — so the submission never executes. -/
theorem range_for_rejected_reason :
    validate rangeForProg =
        Except.error (ValidationError.callForbiddenName "range") ∧
      SAFE_BUILTINS.contains "range" = false ∧
      SAFE_BUILTINS_FIRST.contains "range" = true :=
  ⟨rfl, rfl, rfl⟩

/-- C3 counterexample: the spec's end-to-end example is not accepted by
validation, so it cannot execute and produce output. -/
theorem range_for_not_accepted : validate rangeForProg ≠ Except.ok () := by
  have h : validate rangeForProg =
      Except.error (ValidationError.callForbiddenName "range") := rfl
  rw [h]
  exact fun hc => Except.noConfusion hc

/-- C6 (amended): every submission containing an import-style construct is
rejected by `validate`, so execution never runs; the reason is ImportForbidden
when the import is the first offending node of the breadth-first walk, but an
offense met earlier in the walk reports its own reason instead. -/
theorem import_always_rejected (m : PyModule)
    (h : (pyWalk m).any hasImportNode = true) :
    ∃ e, validate m = Except.error e := by
  obtain ⟨n, hn, hi⟩ := List.any_eq_true.mp h
  exact validate_error_of_offense m n hn _ (offense_of_hasImport n hi)

/-- C6 witness: `import os` contains an import node and is rejected. -/
theorem import_always_rejected_witness :
    ((pyWalk importOsProg).any hasImportNode = true) ∧
      ∃ e, validate importOsProg = Except.error e :=
  ⟨rfl, import_always_rejected importOsProg rfl⟩

/-- C6 counterexample: `mixedProg` (`x.y` then a nested `import os`) contains
an import-style construct, yet its rejection reason is the attribute
restriction, not ImportForbidden — the walk meets the shallower attribute
node first. -/
theorem import_not_first_offense_reason :
    ((pyWalk mixedProg).any hasImportNode = true) ∧
      validate mixedProg = Except.error ValidationError.attributeForbidden :=
  ⟨rfl, rfl⟩

/-- C7 (amended): the verdict of `_validate` is decided by the structural
walk alone — whenever no node of the walk offends, the submission is
accepted.  There is no independent raw-source token scan in the code. -/
theorem structural_walk_decides (m : PyModule)
    (h : (pyWalk m).all (fun n => (offense n).isNone) = true) :
    validate m = Except.ok () := by
  apply validate_ok_of_clean
  intro n hn
  exact Option.isNone_iff_eq_none.mp (List.all_eq_true.mp h n hn)

/-- C7 witness: the tree of `x = "subprocess"` is offense-free and accepted. -/
theorem structural_walk_decides_witness :
    ((pyWalk strLitProg).all (fun n => (offense n).isNone) = true) ∧
      validate strLitProg = Except.ok () :=
  ⟨rfl, structural_walk_decides strLitProg rfl⟩

/-- C7 counterexample: the raw source text `x = "subprocess"` contains the
forbidden process-primitive token `subprocess` literally, yet `validate`
accepts it — there is no raw-text defense-in-depth scan. -/
theorem string_literal_token_accepted :
    (∃ pre post, strLitSrc = pre ++ "subprocess" ++ post) ∧
      validate strLitProg = Except.ok () :=
  ⟨⟨"x = \"", "\"", rfl⟩, rfl⟩

/-- C8 (amended): every submission free of import-style constructs whose
attribute accesses are all on the permitted alias `math` and whose calls all
target permitted primitive names or `math` functions is accepted by
`validate`.  (The import-freedom hypothesis is forced: `import os` satisfies
the other two hypotheses vacuously and is rejected.) -/
theorem allowlisted_source_accepted (m : PyModule)
    (h1 : (pyWalk m).all (fun n => !hasImportNode n) = true)
    (h2 : (pyWalk m).all attrOnMathAlias = true)
    (h3 : (pyWalk m).all callPermitted = true) :
    validate m = Except.ok () := by
  apply validate_ok_of_clean
  intro n hn
  have g1 := List.all_eq_true.mp h1 n hn
  exact offense_none_of_ok n (by simpa using g1)
    (List.all_eq_true.mp h2 n hn) (List.all_eq_true.mp h3 n hn)

/-- C8 witness: `math.sqrt(4)` satisfies all three hypotheses and is
accepted. -/
theorem allowlisted_source_accepted_witness :
    (((pyWalk mathSqrtProg).all (fun n => !hasImportNode n) = true) ∧
      ((pyWalk mathSqrtProg).all attrOnMathAlias = true) ∧
      ((pyWalk mathSqrtProg).all callPermitted = true)) ∧
      validate mathSqrtProg = Except.ok () :=
  ⟨⟨rfl, rfl, rfl⟩, allowlisted_source_accepted mathSqrtProg rfl rfl rfl⟩

/-- C8 counterexample: `import os` makes no attribute access and no call at
all, so it satisfies the claim's hypotheses vacuously, yet `validate` rejects
it — the claim as stated is false without an import-freedom hypothesis. -/
theorem vacuous_import_rejected :
    ((pyWalk importOsProg).all attrOnMathAlias = true) ∧
      ((pyWalk importOsProg).all callPermitted = true) ∧
      validate importOsProg = Except.error ValidationError.importForbidden :=
  ⟨rfl, rfl, rfl⟩

/-! ### The session state store (`src/app.py` lines 38-87)

`SESSION_STATES` maps a session token to a bindings snapshot.  Snapshots are
Python dicts of name → value; they are embedded as association lists with
dict-update semantics, generic over the value type (executed code can bind
arbitrary objects).  The re-entrant lock serializes each single operation;
the operations themselves are the pure state transformers below. -/

/-- A bindings snapshot: variable name → value. -/
def Snapshot (V : Type) := List (String × V)

/-- The process-wide `SESSION_STATES` table: session id → snapshot. -/
def SessionStates (V : Type) := List (String × Snapshot V)

/-- Dict lookup `d.get(k)` / `k in d` on an association list. -/
def lookupKey {V : Type} (k : String) : List (String × V) → Option V
  | [] => none
  | kv :: rest => if kv.1 == k then some kv.2 else lookupKey k rest

/-- Dict assignment `d[k] = v`: the new binding shadows and drops any old
binding of `k`. -/
def setKey {V : Type} (k : String) (v : V) (l : List (String × V)) :
    List (String × V) :=
  (k, v) :: l.filter (fun kv => kv.1 != k)

/-- `_load_session_state`: `SESSION_STATES.setdefault(session_id, {})`, then
a shallow copy of the stored state is returned.  The pair is (returned copy,
table after the `setdefault`). -/
def loadSessionState {V : Type} (st : SessionStates V) (sid : String) :
    Snapshot V × SessionStates V :=
  match lookupKey sid st with
  | some s => (s, st)
  | none => ([], setKey sid [] st)

/-- `_persist_session_state`: filters the reserved `__builtins__` key out of
the new state and replaces the session's stored snapshot wholesale. -/
def persistSessionState {V : Type} (st : SessionStates V) (sid : String)
    (newState : Snapshot V) : SessionStates V :=
  setKey sid (newState.filter (fun kv => kv.1 != "__builtins__")) st

/-- `reset_all_session_state`: `SESSION_STATES.clear()`. -/
def resetAllSessionState {V : Type} (_st : SessionStates V) : SessionStates V :=
  []

/-- The states of `SESSION_STATES` reachable from process start through the
store's operations (`_load_session_state`, `_persist_session_state`,
`reset_all_session_state` — the only code that touches the table). -/
inductive StoreReachable {V : Type} : SessionStates V → Prop where
  | init : StoreReachable []
  | load (st : SessionStates V) (sid : String) :
      StoreReachable st → StoreReachable (loadSessionState st sid).2
  | persist (st : SessionStates V) (sid : String) (ns : Snapshot V) :
      StoreReachable st → StoreReachable (persistSessionState st sid ns)
  | reset (st : SessionStates V) :
      StoreReachable st → StoreReachable (resetAllSessionState st)

/-- A snapshot free of the reserved primitive-table key. -/
def snapshotClean {V : Type} (s : Snapshot V) : Bool :=
  s.all (fun kv => kv.1 != "__builtins__")

/-- Every snapshot held in the table is free of the reserved key. -/
def storeClean {V : Type} (st : SessionStates V) : Bool :=
  st.all (fun e => snapshotClean e.2)

theorem snapshotClean_filter {V : Type} (s : Snapshot V) :
    snapshotClean (s.filter (fun kv => kv.1 != "__builtins__")) = true :=
  List.all_eq_true.mpr fun _ h => (List.mem_filter.mp h).2

theorem storeClean_setKey {V : Type} (k : String) (v : Snapshot V)
    (l : SessionStates V) (hv : snapshotClean v = true)
    (hl : storeClean l = true) : storeClean (setKey k v l) = true := by
  simp only [storeClean, setKey, List.all_cons, Bool.and_eq_true]
  exact ⟨hv, List.all_eq_true.mpr fun e he =>
    List.all_eq_true.mp hl e (List.mem_of_mem_filter he)⟩

theorem lookupKey_clean {V : Type} (st : SessionStates V)
    (h : storeClean st = true) (k : String) :
    ∀ v, lookupKey k st = some v → snapshotClean v = true := by
  induction st with
  | nil => intro v hv; exact absurd hv (by simp [lookupKey])
  | cons kv rest ih =>
      intro v hv
      have hhead : snapshotClean kv.2 = true :=
        List.all_eq_true.mp h kv (List.mem_cons_self kv rest)
      have htail : storeClean rest = true :=
        List.all_eq_true.mpr fun e he =>
          List.all_eq_true.mp h e (List.mem_cons_of_mem kv he)
      by_cases hk : (kv.1 == k) = true
      · rw [lookupKey, if_pos hk] at hv
        cases hv; exact hhead
      · rw [lookupKey, if_neg hk] at hv
        exact ih htail v hv

theorem storeClean_reachable {V : Type} (st : SessionStates V)
    (h : StoreReachable st) : storeClean st = true := by
  induction h with
  | init => rfl
  | load st sid _ ih =>
      cases hlk : lookupKey sid st with
      | some s => simpa [loadSessionState, hlk] using ih
      | none =>
          simp only [loadSessionState, hlk]
          exact storeClean_setKey sid [] st rfl ih
  | persist st sid ns _ ih =>
      exact storeClean_setKey sid _ st (snapshotClean_filter ns) ih
  | reset st _ _ => rfl

/-- C9: `store` filters the reserved `__builtins__` key, so in every state
of the session store reachable through its operations, every snapshot it
holds is free of the reserved key, and every snapshot `load` returns is free
of the reserved key. -/
theorem store_never_holds_builtins_key {V : Type} (st : SessionStates V)
    (h : StoreReachable st) :
    storeClean st = true ∧
      ∀ sid, snapshotClean (loadSessionState st sid).1 = true := by
  have hc := storeClean_reachable st h
  refine ⟨hc, fun sid => ?_⟩
  cases hlk : lookupKey sid st with
  | some s => simpa [loadSessionState, hlk] using lookupKey_clean st hc sid s hlk
  | none => simp [loadSessionState, hlk, snapshotClean]

/-- A store built by loading a fresh token and then persisting a snapshot
that does contain the reserved key. -/
def demoStore : SessionStates Nat :=
  persistSessionState (loadSessionState [] "tokenA").2 "tokenA"
    [("__builtins__", 0), ("x", 5)]

/-- C9 witness: after persisting a snapshot containing `__builtins__` under
`tokenA`, the table is clean and a load under `tokenB` is clean. -/
theorem store_never_holds_builtins_key_witness :
    storeClean demoStore = true ∧
      snapshotClean (loadSessionState demoStore "tokenB").1 = true := by
  have hr : StoreReachable demoStore :=
    StoreReachable.persist _ _ _ (StoreReachable.load _ _ StoreReachable.init)
  exact ⟨(store_never_holds_builtins_key demoStore hr).1,
    (store_never_holds_builtins_key demoStore hr).2 "tokenB"⟩

/-! ### The hash registry (`src/blackroad_hash.py`)

`BlackRoadHasher.hash_content` digests `"BLACKROAD:{type}:{name}:" + content`
with SHA-256 and records the result in the in-memory registry under the
entity name; `verify_hash` recomputes the digest from the stored entity type
and compares.  SHA-256 enters only as a deterministic function of the tagged
message, so it is a parameter `sha256` here; every theorem below holds for
any such function.  The best-effort JSON persistence to disk
(`_save_registry`/`_load_registry`) is outside the in-memory contract the
claims address. -/

/-- A registry record (`BlackRoadHash`).  `timestamp` models `time.time()`
(supplied by the caller here), `metadata` the keyword arguments. -/
structure BlackRoadHash where
  hash_value : String
  entity_type : String
  entity_name : String
  timestamp : Nat
  metadata : List (String × String)

/-- The in-memory state of a `BlackRoadHasher`: its `_registry` dict. -/
structure BlackRoadHasher where
  registry : List (String × BlackRoadHash)

/-- The message text fed to SHA-256: `"BLACKROAD:{type}:{name}:"` followed by
the content (two `update` calls digest the concatenation). -/
def taggedMessage (entity_type entity_name content : String) : String :=
  "BLACKROAD:" ++ entity_type ++ ":" ++ entity_name ++ ":" ++ content

/-- `BlackRoadHasher.hash_content`: builds the record and stores it in the
registry under the entity name; returns (record, updated hasher). -/
def hash_content (sha256 : String → String) (h : BlackRoadHasher)
    (content entity_type entity_name : String) (ts : Nat)
    (md : List (String × String)) : BlackRoadHash × BlackRoadHasher :=
  let hv := sha256 (taggedMessage entity_type entity_name content)
  let br : BlackRoadHash := ⟨hv, entity_type, entity_name, ts, md⟩
  (br, ⟨setKey entity_name br h.registry⟩)

/-- `BlackRoadHasher.verify_hash`: `False` for an unknown entity name;
otherwise recomputes the digest from the stored entity type and the given
content and compares it with the stored hash value. -/
def verify_hash (sha256 : String → String) (h : BlackRoadHasher)
    (entity_name current_content : String) : Bool :=
  match lookupKey entity_name h.registry with
  | none => false
  | some stored =>
      sha256 (taggedMessage stored.entity_type entity_name current_content)
        == stored.hash_value

/-- C10: hash-registry round trip.  After `hash_content c t n`,
`verify_hash n c` on the resulting hasher returns `True`; and on a hasher
whose registry does not hold `n`, `verify_hash n c` returns `False` for
every content `c`. -/
theorem hash_registry_round_trip (sha256 : String → String)
    (h : BlackRoadHasher) (c t n : String) (ts : Nat)
    (md : List (String × String)) :
    verify_hash sha256 (hash_content sha256 h c t n ts md).2 n c = true ∧
      (lookupKey n h.registry = none →
        ∀ c2, verify_hash sha256 h n c2 = false) := by
  constructor
  · simp [verify_hash, hash_content, setKey, lookupKey]
  · intro hnone c2
    simp [verify_hash, hnone]

/-- C10 witness: a concrete round trip on the empty hasher, with the identity
function standing in for the digest. -/
theorem hash_registry_round_trip_witness :
    (verify_hash (fun s => s)
        (hash_content (fun s => s) ⟨[]⟩ "content" "agent" "demo" 0 []).2
        "demo" "content" = true) ∧
      (lookupKey "demo" (BlackRoadHasher.mk []).registry = none ∧
        verify_hash (fun s => s) ⟨[]⟩ "demo" "other" = false) :=
  ⟨(hash_registry_round_trip (fun s => s) ⟨[]⟩ "content" "agent" "demo" 0 []).1,
    rfl,
    (hash_registry_round_trip (fun s => s) ⟨[]⟩ "content" "agent" "demo" 0
      []).2 rfl "other"⟩
